import Mathlib

/-!
Shallow embedding of the matrix-rain terminal screensaver (`src/main.rs`)
and proofs about its specification claims.

Modelling conventions:
* Rust machine integers (`u8`, `u16`, `u32`, `u64`, `usize`) are modelled as
  `Nat`, with an explicit `% 2 ^ w` where the source relies on wrap-around
  (the `tick: u8` counter).  Saturating subtraction maps to `Nat` subtraction.
* `f32` / `f64` arithmetic is modelled over `ℚ`; all floating computations the
  claims touch are far from representation boundaries, so rational arithmetic
  is a faithful abstraction of their comparisons and clamp behaviour.
* Fallible operations return `Option`; a `rand` empty-range panic is `none`.
* Randomness (`rand::thread_rng`) is an injected stream `RNG = Nat → Nat`;
  a uniform sample from a non-empty range `lo..hi` consumes one stream value
  `r` and yields `lo + r % size` — exactly the support of the real sampler.
-/

namespace MatrixRain

/-- The fixed glyph charset, `const CHARS` in the source (braces escaped). -/
def CHARS : String := "abcdefghijklmnopqrstuvwxyzABCDEFGHIJKLMNOPQRSTUVWXYZ0123456789@#$%^&*()_+-=[]\x7b\x7d|;:,.<>?アイウエオカキクケコサシスセソタチツテトナニヌネノハヒフヘホマミムメモヤユヨラリルレロワヲン"

/-- `chars_vec`: the charset as a vector, as built in `Drop::new` / `Drop::update`. -/
def charsVec : List Char := CHARS.data

/-- `enum ColorScheme` from the source. -/
inductive ColorScheme
  | green
  | blue
  | red
  | purple
  | cyan
  | rainbow
deriving DecidableEq, Repr

/-- ASCII lower-casing of one character (the effect of `to_lowercase` on the
scheme names the source compares against). -/
def charLower (c : Char) : Char :=
  if 'A' ≤ c ∧ c ≤ 'Z' then Char.ofNat (c.toNat + 32) else c

/-- `ColorScheme::from_str` (case-insensitive name lookup). -/
def ColorScheme.fromStr (s : String) : Option ColorScheme :=
  let t := s.data.map charLower
  if t = "green".data then some .green
  else if t = "blue".data then some .blue
  else if t = "red".data then some .red
  else if t = "purple".data then some .purple
  else if t = "cyan".data then some .cyan
  else if t = "rainbow".data then some .rainbow
  else none

/-- A color at the rational (pre-`as u8`-cast) level: either crossterm's named
`Color::White` or an RGB triple of the `f32` channel values, modelled in `ℚ`. -/
inductive QColor
  | white
  | qrgb (r g b : ℚ)
deriving DecidableEq

/-- Rust `%` on `f32` for the nonnegative operands used here
(`a - b * trunc(a/b)`, which for `a ≥ 0 < b` is floor-based). -/
def fmodQ (a b : ℚ) : ℚ := a - b * ⌊a / b⌋

/-- `fn hsv_to_rgb`, channels kept in `ℚ` before the `* 255.0` cast is
truncated (the truncation itself lives in `f32ToU8`).  Rust's `i % 6` on the
nonnegative `i = floor(h*6)` agrees with `Int.emod`. -/
def hsv_to_rgb (h s v : ℚ) : ℚ × ℚ × ℚ :=
  let i : ℤ := ⌊h * 6⌋
  let f : ℚ := h * 6 - (i : ℚ)
  let p : ℚ := v * (1 - s)
  let q : ℚ := v * (1 - f * s)
  let t : ℚ := v * (1 - (1 - f) * s)
  let rgb : ℚ × ℚ × ℚ :=
    match (i % 6).toNat with
    | 0 => (v, t, p)
    | 1 => (q, v, p)
    | 2 => (p, v, t)
    | 3 => (p, q, v)
    | 4 => (t, p, v)
    | _ => (v, p, q)
  (rgb.1 * 255, rgb.2.1 * 255, rgb.2.2 * 255)

/-- `ColorScheme::get_colors` at the rational level: every branch of the
source `match`, with the `f32` arithmetic carried out in `ℚ` and the final
`as u8` casts deferred to `get_colors`. -/
def getColorsQ (sch : ColorScheme) (i len x : Nat) : QColor :=
  let fade : ℚ := (i : ℚ) / (len : ℚ)
  match sch with
  | .green =>
    if i = 0 then .qrgb 200 255 200
    else if i = 1 then .qrgb 100 255 100
    else
      let intensity : ℚ := max (1 - fade * (85/100)) (15/100)
      .qrgb (30 * (1 - fade)) (255 * intensity) 0
  | .blue =>
    if i = 0 then .qrgb 200 220 255
    else if i = 1 then .qrgb 100 150 255
    else
      let intensity : ℚ := max (1 - fade * (85/100)) (15/100)
      .qrgb 0 (100 * intensity) (255 * intensity)
  | .red =>
    if i = 0 then .qrgb 255 220 200
    else if i = 1 then .qrgb 255 100 100
    else
      let intensity : ℚ := max (1 - fade * (85/100)) (15/100)
      .qrgb (255 * intensity) (30 * (1 - fade)) 0
  | .purple =>
    if i = 0 then .qrgb 240 200 255
    else if i = 1 then .qrgb 200 100 255
    else
      let intensity : ℚ := max (1 - fade * (85/100)) (15/100)
      .qrgb (180 * intensity) 0 (255 * intensity)
  | .cyan =>
    if i = 0 then .qrgb 200 255 255
    else if i = 1 then .qrgb 100 255 255
    else
      let intensity : ℚ := max (1 - fade * (85/100)) (15/100)
      .qrgb 0 (255 * intensity) (255 * intensity)
  | .rainbow =>
    if i = 0 then .white
    else
      let hue : ℚ := fmodQ ((x : ℚ) * 10 + (i : ℚ) * 15) 360 / 360
      let intensity : ℚ := max (1 - fade * (80/100)) (20/100)
      let c := hsv_to_rgb hue 1 intensity
      .qrgb c.1 c.2.1 c.2.2

/-- Rust's `f32 as u8` cast: saturate into `[0, 255]`, truncating toward zero
(for the nonnegative inputs arising here, truncation is `Int.floor`). -/
def f32ToU8 (q : ℚ) : Nat := min 255 (Int.toNat ⌊q⌋)

/-- Concrete terminal colors as handed to crossterm (`u8` channels). -/
inductive Co
  | reset
  | white
  | black
  | rgb (r g b : Nat)
deriving DecidableEq, Repr

/-- `ColorScheme::get_colors` with the `as u8` casts applied. -/
def get_colors (sch : ColorScheme) (i len x : Nat) : Co :=
  match getColorsQ sch i len x with
  | .white => .white
  | .qrgb r g b => .rgb (f32ToU8 r) (f32ToU8 g) (f32ToU8 b)

/-! ## Randomness -/

/-- An injected entropy stream standing for `rand::thread_rng()`. -/
def RNG : Type := Nat → Nat

/-- Remaining stream after consuming one value. -/
def RNG.tail (g : RNG) : RNG := fun n => g (n + 1)

/-- A fallible random computation; `none` models a `rand` panic
(sampling from an empty range). -/
def Gen (α : Type) : Type := RNG → Option (α × RNG)

/-- Return without consuming entropy. -/
def Gen.pure (a : α) : Gen α := fun g => some (a, g)

/-- Sequencing; a panic propagates. -/
def Gen.bind (m : Gen α) (f : α → Gen β) : Gen β := fun g =>
  match m g with
  | none => none
  | some (a, g') => f a g'

/-- A `rand` panic (empty sampling range). -/
def Gen.fail : Gen α := fun _ => none

/-- `rng.gen_range(lo..=hi)` on unsigned integers: panics iff `hi < lo`,
else consumes one stream value and lands anywhere in `[lo, hi]`. -/
def genRangeN (lo hi : Nat) : Gen Nat := fun g =>
  if lo ≤ hi then some (lo + g 0 % (hi + 1 - lo), RNG.tail g) else none

/-- `rng.gen_range(lo..hi)` (half-open) on unsigned integers: panics iff
`hi ≤ lo`, else lands anywhere in `[lo, hi)`. -/
def genRangeLt (lo hi : Nat) : Gen Nat := fun g =>
  if lo < hi then some (lo + g 0 % (hi - lo), RNG.tail g) else none

/-- `rng.gen_range(-30..0)` in `Drop::new`: the range is constant and
non-empty, yielding an initial head row in `[-30, -1]`. -/
def genY : Gen Int := fun g => some (-30 + (g 0 % 30 : Nat), RNG.tail g)

/-- `rng.gen_bool(p)` for the probabilities used by the source (all inside
`(0, 1]`): consumes one stream value, both outcomes reachable. -/
def genBool : Gen Bool := fun g => some (g 0 % 2 == 1, RNG.tail g)

/-! ## Drop -/

/-- `struct Drop`.  `x: u16`, `speed: u8`, `length: usize`, `tick: u8` are
`Nat` (wrap-around of `tick` is applied at its sole mutation site);
`y: i32` is `Int`. -/
structure Drop where
  x : Nat
  y : Int
  speed : Nat
  length : Nat
  chars : List Char
  tick : Nat
deriving DecidableEq, Repr

/-- `struct Settings`.  `density: f64` is modelled in `ℚ`. -/
structure Settings where
  frame_delay_ms : Nat
  density : ℚ
  spawns_per_frame : Nat
  min_length : Nat
  max_length : Nat
  min_speed : Nat
  max_speed : Nat
  color_scheme : ColorScheme
deriving DecidableEq, Repr

/-- `impl Default for Settings`. -/
def defaultSettings : Settings where
  frame_delay_ms := 50
  density := 2/5
  spawns_per_frame := 4
  min_length := 10
  max_length := 30
  min_speed := 2
  max_speed := 4
  color_scheme := .green

/-- The glyph-buffer fill in `Drop::new`:
`(0..length).map(|_| chars_vec[rng.gen_range(0..chars_vec.len())]).collect()`. -/
def genChars : Nat → Gen (List Char)
  | 0 => Gen.pure []
  | n + 1 =>
    Gen.bind (genRangeLt 0 charsVec.length) fun i =>
    Gen.bind (genChars n) fun rest =>
    Gen.pure (charsVec.getD i ' ' :: rest)

/-- `Drop::new(x, settings)`: samples length, initial row, speed, then the
glyph buffer, in source order. -/
def Drop.new (x : Nat) (s : Settings) : Gen Drop :=
  Gen.bind (genRangeN s.min_length s.max_length) fun length =>
  Gen.bind genY fun y =>
  Gen.bind (genRangeN s.min_speed s.max_speed) fun speed =>
  Gen.bind (genChars length) fun cs =>
  Gen.pure { x := x, y := y, speed := speed, length := length, chars := cs, tick := 0 }

/-- One iteration of the shimmer loop in `Drop::update`: flip a coin, and on
heads replace a random buffer slot with a random charset glyph
(`self.chars[idx] = ...` panics when `idx` is out of bounds). -/
def shimmerStep (len : Nat) (cs : List Char) : Gen (List Char) :=
  Gen.bind genBool fun b =>
    if b then
      Gen.bind (genRangeLt 0 len) fun idx =>
      Gen.bind (genRangeLt 0 charsVec.length) fun ci =>
        if idx < cs.length then Gen.pure (cs.set idx (charsVec.getD ci ' ')) else Gen.fail
    else Gen.pure cs

/-- `for _ in 0..shimmer_count { ... }` in `Drop::update`. -/
def shimmerLoop (len : Nat) : Nat → List Char → Gen (List Char)
  | 0, cs => Gen.pure cs
  | n + 1, cs => Gen.bind (shimmerStep len cs) fun cs' => shimmerLoop len n cs'

/-- A draw instruction `(x, y, glyph, color)` as pushed into `draws`. -/
abbrev DrawCmd := Nat × Nat × Char × Co

/-- The draw-collection loop of `Drop::update`:
`for (i, &ch) in self.chars.iter().enumerate()`, pushing a cell for every
index whose absolute row `y - i` lies inside `[0, height)`. -/
def drawCells (x : Nat) (y : Int) (h : Nat) (len : Nat) (sch : ColorScheme) :
    List Char → Nat → List DrawCmd
  | [], _ => []
  | ch :: rest, i =>
    let cy := y - (i : Int)
    if 0 ≤ cy ∧ cy < (h : Int) then
      (x, cy.toNat, ch, get_colors sch i len x) :: drawCells x y h len sch rest (i + 1)
    else drawCells x y h len sch rest (i + 1)

/-- `Drop::update(height, color_scheme)`.  `self.tick += 1` on `u8` wraps
mod `2^8`; `tick % speed` panics in Rust when `speed = 0`, hence the guard;
when the gate fails the drop does not move and no instruction is produced;
otherwise the head advances, the buffer shimmers, visible cells are drawn and
the tail cell is blanked when visible. -/
def Drop.update (d : Drop) (h : Nat) (sch : ColorScheme) : Gen (Drop × List DrawCmd) :=
  if d.speed = 0 then Gen.fail
  else
    let tick := (d.tick + 1) % 256
    if tick % d.speed ≠ 0 then Gen.pure ({ d with tick := tick }, [])
    else
      let y := d.y + 1
      Gen.bind (genRangeN 0 2) fun sc =>
      Gen.bind (shimmerLoop d.length sc d.chars) fun cs =>
        let body := drawCells d.x y h d.length sch cs 0
        let tailY := y - (d.length : Int)
        let tailDraw := if 0 ≤ tailY ∧ tailY < (h : Int) then [(d.x, tailY.toNat, ' ', Co.black)] else []
        Gen.pure ({ d with tick := tick, y := y, chars := cs }, body ++ tailDraw)

/-- `Drop::is_done(height)`: the tail has moved strictly past the visible
height (`self.y - self.length as i32 > height as i32`). -/
def Drop.is_done (d : Drop) (h : Nat) : Bool :=
  decide ((h : Int) < d.y - (d.length : Int))

/-- Iterate `Drop::update`, discarding the draw instructions (used to reason
about the tick counter across a drop's lifetime). -/
def runUpdates (h : Nat) (sch : ColorScheme) : Nat → Drop → Gen Drop
  | 0, d => Gen.pure d
  | n + 1, d => Gen.bind (d.update h sch) fun p => runUpdates h sch n p.1

/-! ## Field / spawn policy -/

/-- The body of the spawn loop in `Matrix::spawn_drops`, iterated `count`
times: with probability `density` pick a column in `[0, width)` and create a
drop there. -/
def spawnIter (s : Settings) (w : Nat) : Nat → Gen (List Drop)
  | 0 => Gen.pure []
  | n + 1 =>
    Gen.bind genBool fun b =>
      if b then
        Gen.bind (genRangeLt 0 w) fun x =>
        Gen.bind (Drop.new x s) fun d =>
        Gen.bind (spawnIter s w n) fun rest =>
        Gen.pure (d :: rest)
      else spawnIter s w n

/-- `Matrix::spawn_drops`: `for _ in 0..rng.gen_range(1..=spawns_per_frame)`,
then the spawn loop body.  Returns the list of freshly created drops. -/
def spawn_drops (s : Settings) (w : Nat) : Gen (List Drop) :=
  Gen.bind (genRangeN 1 s.spawns_per_frame) fun count =>
  spawnIter s w count

/-! ## Input/Control Mapper -/

/-- The crossterm `KeyCode`s the source distinguishes. -/
inductive KeyCode
  | char (c : Char)
  | esc
  | enter
  | up
  | down
  | left
  | right
  | otherKey
deriving DecidableEq, Repr

/-- A key event: code plus whether `KeyModifiers::CONTROL` is held. -/
structure KeyEvent where
  code : KeyCode
  ctrl : Bool
deriving DecidableEq, Repr

/-- The exit arms of the key `match` in `Matrix::run`:
`q`/Esc/Enter/Space unconditionally, `c`/`d`/`z` only with CONTROL. -/
def isExitKey (k : KeyEvent) : Bool :=
  match k.code with
  | .char 'q' => true
  | .esc => true
  | .enter => true
  | .char ' ' => true
  | .char 'c' => k.ctrl
  | .char 'd' => k.ctrl
  | .char 'z' => k.ctrl
  | _ => false

/-- The non-exit arms of the key `match` in `Matrix::run`: the settings
mutations (a guarded exit arm whose guard fails, e.g. plain `c`, falls through
to the catch-all and leaves the settings unchanged, as in the source). -/
def applyKey (k : KeyEvent) (s : Settings) : Settings :=
  match k.code with
  | .up => { s with frame_delay_ms := max (s.frame_delay_ms - 5) 5 }
  | .down => { s with frame_delay_ms := min (s.frame_delay_ms + 5) 100 }
  | .right => { s with density := min (s.density + 5/100) 1,
                       spawns_per_frame := min (s.spawns_per_frame + 1) 20 }
  | .left => { s with density := max (s.density - 5/100) (5/100),
                      spawns_per_frame := max (s.spawns_per_frame - 1) 1 }
  | .char '+' => { s with max_length := min (s.max_length + 5) 50 }
  | .char '=' => { s with max_length := min (s.max_length + 5) 50 }
  | .char '-' => { s with max_length := max (s.max_length - 5) 5 }
  | .char '1' => { s with color_scheme := .green }
  | .char '2' => { s with color_scheme := .blue }
  | .char '3' => { s with color_scheme := .red }
  | .char '4' => { s with color_scheme := .purple }
  | .char '5' => { s with color_scheme := .cyan }
  | .char '6' => { s with color_scheme := .rainbow }
  | _ => s

/-- The `'-'` key event (max-length decrease). -/
def minusKey : KeyEvent := ⟨.char '-', false⟩

/-- The Up key event (frame-delay decrease). -/
def upKey : KeyEvent := ⟨.up, false⟩

/-- The Right key event (density increase). -/
def rightKey : KeyEvent := ⟨.right, false⟩

/-- The Left key event (density decrease). -/
def leftKey : KeyEvent := ⟨.left, false⟩

/-! ## CLI parsing -/

/-- `u64::MAX`, the parse bound for `frame_delay_ms` and (on 64-bit)
`max_length : usize`. -/
def u64Max : Nat := 2 ^ 64 - 1

/-- `u32::MAX`, the parse bound for `spawns_per_frame`. -/
def u32Max : Nat := 2 ^ 32 - 1

/-- Accumulating base-10 digit scan (`none` on the first non-digit). -/
def digitsToNat : List Char → Nat → Option Nat
  | [], acc => some acc
  | c :: cs, acc =>
    if c.isDigit then digitsToNat cs (acc * 10 + (c.toNat - 48)) else none

/-- Parse a non-empty all-digit character list into a `Nat`. -/
def parseNatChars (l : List Char) : Option Nat :=
  if l = [] then none else digitsToNat l 0

/-- Rust `str::parse` into a bounded unsigned integer: digit strings within
the type's range parse, everything else (as used by the claims: non-numeric
strings, overflow) is `Err`. -/
def parseUInt (bound : Nat) (s : String) : Option Nat :=
  match parseNatChars s.data with
  | some n => if n ≤ bound then some n else none
  | none => none

/-- Split a character list at its first `'.'`. -/
def splitDot : List Char → List Char × Option (List Char)
  | [] => ([], none)
  | c :: rest =>
    if c = '.' then ([], some rest)
    else
      let p := splitDot rest
      (c :: p.1, p.2)

/-- Rust `str::parse::<f64>` restricted to plain decimal literals
(`digits` or `digits.digits`), which covers every input the claims exercise;
other strings are `Err`. -/
def parseDecQ (s : String) : Option ℚ :=
  match splitDot s.data with
  | (a, none) => (parseNatChars a).map (fun n => (n : ℚ))
  | (a, some b) =>
    match parseNatChars a, parseNatChars b with
    | some n, some m => some ((n : ℚ) + (m : ℚ) / (10 ^ b.length : ℚ))
    | _, _ => none

/-- Rust `f64::clamp(lo, hi)` for `lo ≤ hi`. -/
def clampQ (x lo hi : ℚ) : ℚ := max lo (min x hi)

/-- The `while` loop of `parse_args`, recursing over the remaining argument
list.  `none` models the `-h`/`--help` `process::exit(0)` path.  A flag in
final position (`args.get(i + 1)` = `None`) changes nothing, exactly as in
the source. -/
def parseArgsLoop : List String → Settings → Option Settings
  | [], s => some s
  | a :: rest, s =>
    if a = "-h" ∨ a = "--help" then none
    else if a = "-s" ∨ a = "--speed" then
      match rest with
      | [] => some s
      | v :: rest' =>
        parseArgsLoop rest' { s with frame_delay_ms := (parseUInt u64Max v).getD 30 }
    else if a = "-d" ∨ a = "--density" then
      match rest with
      | [] => some s
      | v :: rest' =>
        let pct : ℚ := (parseDecQ v).getD 15
        parseArgsLoop rest' { s with density := clampQ (pct / 100) (1/100) 1 }
    else if a = "-n" ∨ a = "--spawns" then
      match rest with
      | [] => some s
      | v :: rest' =>
        parseArgsLoop rest' { s with spawns_per_frame := (parseUInt u32Max v).getD 3 }
    else if a = "-l" ∨ a = "--length" then
      match rest with
      | [] => some s
      | v :: rest' =>
        parseArgsLoop rest' { s with max_length := (parseUInt u64Max v).getD 25 }
    else if a = "-c" ∨ a = "--color" then
      match rest with
      | [] => some s
      | v :: rest' =>
        parseArgsLoop rest'
          (match ColorScheme.fromStr v with
           | some c => { s with color_scheme := c }
           | none => s)
    else parseArgsLoop rest s

/-- `fn parse_args`: fold the argument list (after the program name) over the
default settings. -/
def parse_args (args : List String) : Option Settings :=
  parseArgsLoop args defaultSettings

/-! ## The main loop (`Matrix::run`) as an I/O effect trace

Terminal I/O is an external capability; `Matrix::run` is embedded as a
function of an oracle (`List IOIn`) that scripts, per fallible terminal call
in source order, whether it fails and what it returns.  The value of the
model is its control flow: which terminal operations are attempted, in which
order, on which exit path. -/

/-- One terminal operation as attempted by `Matrix::run`, in the order the
source issues them.  Each `execute!` block is logged command-by-command. -/
inductive TermOp
  | enableRaw
  | hideCursor
  | disableWrap
  | clearAll
  | pollOp
  | readOp
  | moveTo (x y : Nat)
  | setFg (c : Co)
  | printCh (c : Char)
  | flushOp
  | showCursor
  | enableWrap
  | disableRaw
deriving DecidableEq, Repr

/-- The oracle's answer for one fallible terminal call: an I/O error
(propagated by `?`), a unit success, a `poll` result, a `read` result
(`none` = a non-key event), or a `terminal::size` result (`none` = `Err`,
which the source swallows). -/
inductive IOIn
  | fails
  | unitOk
  | pollRes (b : Bool)
  | readRes (k : Option KeyEvent)
  | sizeRes (r : Option (Nat × Nat))
deriving DecidableEq, Repr

/-- Pop the next oracle entry (an exhausted oracle answers `unitOk`). -/
def nextIn : List IOIn → IOIn × List IOIn
  | [] => (.unitOk, [])
  | a :: r => (a, r)

/-- `struct Matrix`: the live drops, terminal dimensions, and settings. -/
structure MatrixSt where
  drops : List Drop
  width : Nat
  height : Nat
  settings : Settings
deriving Repr

/-- `Matrix::new`: dimensions from `terminal::size().unwrap_or((80, 24))`. -/
def MatrixSt.new (size0 : Option (Nat × Nat)) (s : Settings) : MatrixSt :=
  let wh := size0.getD (80, 24)
  { drops := [], width := wh.1, height := wh.2, settings := s }

/-- Outcome of `Matrix::run`: returned `Ok(())` after the quit path,
propagated an `io::Error`, panicked (a `rand` empty range), or the model ran
out of fuel mid-animation.  Each carries the operations attempted so far. -/
inductive RunOut
  | okQuit (log : List TermOp)
  | ioError (log : List TermOp)
  | panicked (log : List TermOp)
  | fuelOut (log : List TermOp)
deriving DecidableEq, Repr

/-- Outcome of emitting the draw instructions of one drop. -/
inductive EmitRes
  | eOk (ins : List IOIn) (log : List TermOp)
  | eErr (log : List TermOp)
deriving Repr

/-- The per-cell `execute!(stdout, MoveTo(x, y), SetForegroundColor(color),
Print(ch))?` loop: one fallible call per draw instruction. -/
def emitDraws : List DrawCmd → List IOIn → List TermOp → EmitRes
  | [], ins, log => .eOk ins log
  | (x, y, ch, c) :: rest, ins, log =>
    let (i, ins') := nextIn ins
    let log' := log ++ [.moveTo x y, .setFg c, .printCh ch]
    match i with
    | .fails => .eErr log'
    | _ => emitDraws rest ins' log'

/-- Outcome of the advance-render-retain pass over the drained drop list. -/
inductive FrameRes
  | fOk (drops : List Drop) (g : RNG) (ins : List IOIn) (log : List TermOp)
  | fErr (log : List TermOp)
  | fPanic (log : List TermOp)

/-- `for mut drop in self.drops.drain(..) { ... }`: update each drop, emit
its draws (`?` on failure), and retain it unless `is_done`. -/
def stepDrops (h : Nat) (sch : ColorScheme) :
    List Drop → List Drop → RNG → List IOIn → List TermOp → FrameRes
  | [], acc, g, ins, log => .fOk acc g ins log
  | d :: ds, acc, g, ins, log =>
    match d.update h sch g with
    | none => .fPanic log
    | some ((d', draws), g') =>
      match emitDraws draws ins log with
      | .eErr log' => .fErr log'
      | .eOk ins' log' =>
        if d'.is_done h then stepDrops h sch ds acc g' ins' log'
        else stepDrops h sch ds (acc ++ [d']) g' ins' log'

/-- The cleanup block after the loop: `execute!(stdout, Show, EnableLineWrap,
SetForegroundColor(Color::Reset), Clear(ClearType::All), MoveTo(0, 0))?` then
`terminal::disable_raw_mode()?`. -/
def cleanup (ins : List IOIn) (log : List TermOp) : RunOut :=
  let (i, ins') := nextIn ins
  let log1 := log ++ [.showCursor, .enableWrap, .setFg .reset, .clearAll, .moveTo 0 0]
  match i with
  | .fails => .ioError log1
  | _ =>
    let (i2, _) := nextIn ins'
    let log2 := log1 ++ [.disableRaw]
    match i2 with
    | .fails => .ioError log2
    | _ => .okQuit log2

/-- What one loop iteration decides: break to cleanup, propagate an error,
panic, or continue with the next frame's state. -/
inductive LoopCmd
  | quitNow (ins : List IOIn) (log : List TermOp)
  | errNow (log : List TermOp)
  | panicNow (log : List TermOp)
  | next (m : MatrixSt) (g : RNG) (ins : List IOIn) (log : List TermOp)

/-- The tail of one loop iteration after input handling: re-read the
terminal size (errors swallowed), spawn, advance/render every drop, flush. -/
def frameRest (m : MatrixSt) (g : RNG) (ins : List IOIn) (log : List TermOp) : LoopCmd :=
  let (i3, ins3) := nextIn ins
  let m1 := match i3 with
    | .sizeRes (some wh) => { m with width := wh.1, height := wh.2 }
    | _ => m
  match spawn_drops m1.settings m1.width g with
  | none => .panicNow log
  | some (newDrops, g') =>
    let drops := m1.drops ++ newDrops
    match stepDrops m1.height m1.settings.color_scheme drops [] g' ins3 log with
    | .fPanic l => .panicNow l
    | .fErr l => .errNow l
    | .fOk drops' g'' ins4 log4 =>
      let (i5, ins5) := nextIn ins4
      let log5 := log4 ++ [.flushOp]
      match i5 with
      | .fails => .errNow log5
      | _ => .next { m1 with drops := drops' } g'' ins5 log5

/-- One full iteration of the `loop` in `Matrix::run`: `poll(1ms)?`, on an
event `read()?`, dispatch the key (exit keys break; others mutate settings
via `applyKey`), then `frameRest`. -/
def frame (m : MatrixSt) (g : RNG) (ins : List IOIn) (log : List TermOp) : LoopCmd :=
  let (i1, ins1) := nextIn ins
  let log1 := log ++ [.pollOp]
  match i1 with
  | .fails => .errNow log1
  | _ =>
    let hasEv := match i1 with | .pollRes b => b | _ => false
    if hasEv then
      let (i2, ins2) := nextIn ins1
      let log2 := log1 ++ [.readOp]
      match i2 with
      | .fails => .errNow log2
      | _ =>
        match (match i2 with | .readRes k => k | _ => none) with
        | some k =>
          if isExitKey k then .quitNow ins2 log2
          else frameRest { m with settings := applyKey k m.settings } g ins2 log2
        | none => frameRest m g ins2 log2
    else frameRest m g ins1 log1

/-- The `loop` of `Matrix::run`, fuelled (the real loop only terminates via
a break or a propagated error). -/
def runLoop : Nat → MatrixSt → RNG → List IOIn → List TermOp → RunOut
  | 0, _, _, _, log => .fuelOut log
  | fuel + 1, m, g, ins, log =>
    match frame m g ins log with
    | .quitNow ins' log' => cleanup ins' log'
    | .errNow log' => .ioError log'
    | .panicNow log' => .panicked log'
    | .next m' g' ins' log' => runLoop fuel m' g' ins' log'

/-- `Matrix::run`: `terminal::enable_raw_mode()?`, the initial
`execute!(stdout, Hide, DisableLineWrap, Clear(ClearType::All))?`, then the
loop (and, only after a break, the cleanup block inside `runLoop`). -/
def run (fuel : Nat) (m : MatrixSt) (g : RNG) (ins : List IOIn) : RunOut :=
  let (i0, ins0) := nextIn ins
  let log0 : List TermOp := [.enableRaw]
  match i0 with
  | .fails => .ioError log0
  | _ =>
    let (i1, ins1) := nextIn ins0
    let log1 := log0 ++ [.hideCursor, .disableWrap, .clearAll]
    match i1 with
    | .fails => .ioError log1
    | _ => runLoop fuel m g ins1 log1

/-! ## Shared helpers for the proofs -/

/-- The all-zeros entropy stream (a concrete witness stream). -/
def gZero : RNG := fun _ => 0

/-- The all-ones entropy stream (a concrete adversarial stream: every coin
flip comes up heads). -/
def gOne : RNG := fun _ => 1

/-- Success of a `Gen.bind` decomposes into successes of both stages. -/
theorem Gen.bind_eq_some {α β : Type} {m : Gen α} {f : α → Gen β} {g : RNG}
    {r : β × RNG} :
    Gen.bind m f g = some r ↔ ∃ a g', m g = some (a, g') ∧ f a g' = some r := by
  unfold Gen.bind
  cases h : m g with
  | none => simp
  | some p =>
    cases p with | mk a g' =>
    simp only [h, Option.some.injEq, Prod.mk.injEq]
    constructor
    · intro hf
      exact ⟨a, g', ⟨rfl, rfl⟩, hf⟩
    · rintro ⟨a1, g1, ⟨rfl, rfl⟩, hf⟩
      exact hf

/-- Rewriting form of `Gen.bind` at a known first-stage result. -/
theorem Gen.bind_eq {α β : Type} {m : Gen α} {f : α → Gen β} {g g1 : RNG} {a : α}
    (h : m g = some (a, g1)) : Gen.bind m f g = f a g1 := by
  unfold Gen.bind
  rw [h]

/-- Total random computations: no entropy stream can make them panic. -/
def Tot {α : Type} (m : Gen α) : Prop := ∀ g : RNG, (m g).isSome

theorem Tot.bind {α β : Type} {m : Gen α} {f : α → Gen β}
    (hm : Tot m) (hf : ∀ a, Tot (f a)) : Tot (Gen.bind m f) := by
  intro g
  unfold Gen.bind
  cases h : m g with
  | none => exact absurd (h ▸ hm g) (by simp)
  | some p => exact hf p.1 p.2

theorem Tot.pure {α : Type} (a : α) : Tot (Gen.pure a) := by
  intro g; simp [Gen.pure]

theorem tot_genRangeN {lo hi : Nat} (h : lo ≤ hi) : Tot (genRangeN lo hi) := by
  intro g; simp [genRangeN, h]

theorem tot_genRangeLt {lo hi : Nat} (h : lo < hi) : Tot (genRangeLt lo hi) := by
  intro g; simp [genRangeLt, h]

theorem tot_genY : Tot genY := by
  intro g; simp [genY]

theorem tot_genBool : Tot genBool := by
  intro g; simp [genBool]

set_option maxRecDepth 4096 in
theorem charsVec_pos : 0 < charsVec.length := by decide

theorem tot_genChars : ∀ n, Tot (genChars n) := by
  intro n
  induction n with
  | zero => exact Tot.pure []
  | succ k ih =>
    exact (tot_genRangeLt charsVec_pos).bind fun i => ih.bind fun rest => Tot.pure _

theorem tot_dropNew {s : Settings} (hl : s.min_length ≤ s.max_length)
    (hs : s.min_speed ≤ s.max_speed) (x : Nat) : Tot (Drop.new x s) := by
  exact (tot_genRangeN hl).bind fun len =>
    tot_genY.bind fun y =>
      (tot_genRangeN hs).bind fun sp =>
        (tot_genChars len).bind fun cs => Tot.pure _

theorem genRangeN_eq_some {lo hi : Nat} {g g' : RNG} {a : Nat}
    (h : genRangeN lo hi g = some (a, g')) : lo ≤ a ∧ a ≤ hi := by
  unfold genRangeN at h
  split at h
  · next hle =>
    simp only [Option.some.injEq, Prod.mk.injEq] at h
    have hm : g 0 % (hi + 1 - lo) < hi + 1 - lo := Nat.mod_lt _ (by omega)
    omega
  · exact absurd h (by simp)

theorem genRangeLt_eq_some {lo hi : Nat} {g g' : RNG} {a : Nat}
    (h : genRangeLt lo hi g = some (a, g')) : lo ≤ a ∧ a < hi := by
  unfold genRangeLt at h
  split at h
  · next hlt =>
    simp only [Option.some.injEq, Prod.mk.injEq] at h
    have hm : g 0 % (hi - lo) < hi - lo := Nat.mod_lt _ (by omega)
    omega
  · exact absurd h (by simp)

theorem genY_eq_some {g g' : RNG} {y : Int}
    (h : genY g = some (y, g')) : -30 ≤ y ∧ y ≤ -1 := by
  unfold genY at h
  simp only [Option.some.injEq, Prod.mk.injEq] at h
  have hm : g 0 % 30 < 30 := Nat.mod_lt _ (by omega)
  omega

theorem genChars_spec : ∀ (n : Nat) (g g' : RNG) (cs : List Char),
    genChars n g = some (cs, g') →
    cs.length = n ∧ ∀ c ∈ cs, c ∈ charsVec := by
  intro n
  induction n with
  | zero =>
    intro g g' cs h
    simp only [genChars, Gen.pure, Option.some.injEq, Prod.mk.injEq] at h
    simp [← h.1]
  | succ k ih =>
    intro g g' cs h
    simp only [genChars] at h
    rw [Gen.bind_eq_some] at h
    obtain ⟨i, g1, hi, h⟩ := h
    rw [Gen.bind_eq_some] at h
    obtain ⟨rest, g2, hrest, h⟩ := h
    simp only [Gen.pure, Option.some.injEq, Prod.mk.injEq] at h
    obtain ⟨-, hilt⟩ := genRangeLt_eq_some hi
    obtain ⟨hlen, hmem⟩ := ih g1 g2 rest hrest
    obtain ⟨hcseq, -⟩ := h
    subst hcseq
    refine ⟨by simp [hlen], ?_⟩
    intro c hc
    rcases List.mem_cons.mp hc with hc | hc
    · subst hc
      rw [List.getD_eq_getElem _ _ (by omega)]
      exact List.getElem_mem _
    · exact hmem c hc

/-- Everything `Drop::new` guarantees about the drop it returns: the sampled
fields land inside their ranges, the tick counter starts at 0, and the glyph
buffer has exactly `length` glyphs, all from the charset. -/
theorem dropNew_spec {x : Nat} {s : Settings} {g : RNG} {d : Drop}
    (h : (Drop.new x s g).map Prod.fst = some d) :
    d.x = x ∧ (-30 ≤ d.y ∧ d.y ≤ -1) ∧
    (s.min_length ≤ d.length ∧ d.length ≤ s.max_length) ∧
    (s.min_speed ≤ d.speed ∧ d.speed ≤ s.max_speed) ∧ d.tick = 0 ∧
    d.chars.length = d.length ∧ (∀ c ∈ d.chars, c ∈ charsVec) := by
  rw [Option.map_eq_some'] at h
  obtain ⟨⟨d0, gf⟩, hd0, hfst⟩ := h
  simp only [Drop.new] at hd0
  rw [Gen.bind_eq_some] at hd0
  obtain ⟨len, g1, hlen, hd0⟩ := hd0
  rw [Gen.bind_eq_some] at hd0
  obtain ⟨y, g2, hy, hd0⟩ := hd0
  rw [Gen.bind_eq_some] at hd0
  obtain ⟨sp, g3, hsp, hd0⟩ := hd0
  rw [Gen.bind_eq_some] at hd0
  obtain ⟨cs, g4, hcs, hd0⟩ := hd0
  simp only [Gen.pure, Option.some.injEq, Prod.mk.injEq] at hd0
  obtain ⟨hrec, -⟩ := hd0
  subst hrec
  subst hfst
  obtain ⟨h1, h2⟩ := genRangeN_eq_some hlen
  obtain ⟨h3, h4⟩ := genY_eq_some hy
  obtain ⟨h5, h6⟩ := genRangeN_eq_some hsp
  obtain ⟨h7, h8⟩ := genChars_spec len g3 g4 cs hcs
  exact ⟨rfl, ⟨h3, h4⟩, ⟨h1, h2⟩, ⟨h5, h6⟩, rfl, h7, h8⟩

/-! ## Claim C1 -/

/-- C1: the claim fails on the code.  Starting from the default settings
(`min_length = 10`), five presses of the `'-'` key drive `max_length` down to
its hard floor of 5, leaving the length range inverted
(`min_length = 10 > 5 = max_length`); with these settings every entropy
stream that reaches `Drop::new` hits `gen_range(10..=5)`, whose empty-range
panic this evaluation exhibits (`spawn_drops ... = none` on the all-ones
stream).  The code thus contradicts the settings invariant its own
`Drop::new` relies on. -/
theorem c1_minus_key_inverts_length_range :
    ((fun s => applyKey minusKey s)^[5] defaultSettings).max_length = 5 ∧
    ((fun s => applyKey minusKey s)^[5] defaultSettings).min_length = 10 ∧
    ¬ (((fun s => applyKey minusKey s)^[5] defaultSettings).min_length ≤
        ((fun s => applyKey minusKey s)^[5] defaultSettings).max_length) ∧
    (spawn_drops ((fun s => applyKey minusKey s)^[5] defaultSettings) 80 gOne).isSome = false := by
  refine ⟨by decide, by decide, by decide, by decide⟩

/-! ## Claim C5 -/

/-- C5 counterexample: the claim says an unparseable numeric value leaves the
setting at its built-in default, but `-s abc` sets `frame_delay_ms` to the
hard-coded fallback 30, not the default 50. -/
theorem c5_counterexample_speed_fallback_not_default :
    (parse_args ["-s", "abc"]).map (fun s => s.frame_delay_ms) = some 30 ∧
    defaultSettings.frame_delay_ms = 50 ∧
    (parse_args ["-s", "abc"]).map (fun s => s.frame_delay_ms) ≠
      some defaultSettings.frame_delay_ms := by
  refine ⟨?_, by decide, ?_⟩
  all_goals
    simp [parse_args, parseArgsLoop, parseUInt, parseNatChars, digitsToNat, defaultSettings]

/-- C5 amended: for each numeric flag, an unparseable value falls back to a
hard-coded constant (`-s` → 30 ms, `-d` → 15 % = 0.15, `-n` → 3, `-l` → 25)
rather than erroring; each of these constants differs from the corresponding
built-in default (50 ms, 0.4, 4, 30). -/
theorem c5_amended_unparseable_uses_fallback_constants :
    (parse_args ["-s", "abc"]).map (fun s => s.frame_delay_ms) = some 30 ∧
    defaultSettings.frame_delay_ms = 50 ∧
    (parse_args ["-d", "abc"]).map (fun s => s.density) = some (15/100) ∧
    defaultSettings.density = 2/5 ∧
    (parse_args ["-n", "abc"]).map (fun s => s.spawns_per_frame) = some 3 ∧
    defaultSettings.spawns_per_frame = 4 ∧
    (parse_args ["-l", "abc"]).map (fun s => s.max_length) = some 25 ∧
    defaultSettings.max_length = 30 := by
  refine ⟨?_, by decide, ?_, by norm_num [defaultSettings], ?_, by decide, ?_, by decide⟩
  all_goals
    simp [parse_args, parseArgsLoop, parseUInt, parseNatChars, digitsToNat, parseDecQ,
      splitDot, clampQ, defaultSettings]
  all_goals
    norm_num [max_def, min_def]

/-! ## Claim C6 -/

/-- C6: clamping is stable under repetition.  Applying the density-increase
key any number of times from the defaults never pushes density above 1;
applying the frame-delay-decrease key any number of times never drops the
delay below 5; every density-decrease application lands at or above the 0.05
floor (so density is never negative); and exactly 20 density-decrease
presses from the default 0.4 leave density at exactly 0.05. -/
theorem c6_clamping_stable_under_repetition :
    (∀ n : Nat, ((fun s => applyKey rightKey s)^[n] defaultSettings).density ≤ 1) ∧
    (∀ n : Nat, 5 ≤ ((fun s => applyKey upKey s)^[n] defaultSettings).frame_delay_ms) ∧
    (∀ n : Nat, 5/100 ≤ ((fun s => applyKey leftKey s)^[n] defaultSettings).density) ∧
    ((fun s => applyKey leftKey s)^[20] defaultSettings).density = 5/100 := by
  refine ⟨?_, ?_, ?_, by
    simp only [Function.iterate_succ_apply', Function.iterate_zero_apply, applyKey, leftKey]
    norm_num [max_def, defaultSettings]⟩
  · intro n
    cases n with
    | zero => norm_num [defaultSettings]
    | succ k =>
      rw [Function.iterate_succ_apply']
      exact min_le_right _ _
  · intro n
    cases n with
    | zero => norm_num [defaultSettings]
    | succ k =>
      rw [Function.iterate_succ_apply']
      exact le_max_right _ _
  · intro n
    cases n with
    | zero => norm_num [defaultSettings]
    | succ k =>
      rw [Function.iterate_succ_apply']
      exact le_max_right _ _

/-! ## Claim C4 -/

/-- C4: `is_done(height)` is `false` for every freshly created drop (its head
starts in `[-30, -1]`, so its tail is above the visible area); and
`is_done` holds exactly when `head - length > visibleHeight`.  Consequently,
measuring advancing ticks relative to the initial head row, the drop becomes
done exactly when the net advance `d.y + k` strictly exceeds
`length + height` — i.e. strictly after exactly `length + height` advancing
ticks have occurred relative to row 0 (each advancing tick moves the head by
one row; the speed divisor only spaces those ticks out over update calls). -/
theorem c4_is_done_threshold :
    (∀ (x : Nat) (s : Settings) (g : RNG) (d : Drop),
        (Drop.new x s g).map Prod.fst = some d →
        (∀ h : Nat, d.is_done h = false) ∧
        (∀ (k h : Nat) (d' : Drop), d'.length = d.length → d'.y = d.y + k →
          (d'.is_done h = true ↔ (h : Int) + (d.length : Int) < d.y + k))) ∧
    (∀ (d : Drop) (h : Nat), d.is_done h = true ↔ (h : Int) + (d.length : Int) < d.y) := by
  have hiff : ∀ (d : Drop) (h : Nat), d.is_done h = true ↔ (h : Int) + (d.length : Int) < d.y := by
    intro d h
    simp only [Drop.is_done, decide_eq_true_eq]
    omega
  refine ⟨?_, hiff⟩
  intro x s g d hd
  obtain ⟨-, ⟨hy1, hy2⟩, -, -, -, -, -⟩ := dropNew_spec hd
  constructor
  · intro h
    have := hiff d h
    simp only [Drop.is_done, decide_eq_false_iff_not]
    omega
  · intro k h d' hl hy
    rw [hiff d' h, hl, hy]

set_option maxRecDepth 16384 in
/-- C4 witness: instantiating the theorem at the drop produced by
`Drop::new 0` on the all-zeros stream (head row −30, length 10, speed 2):
fresh means not done at height 24, and after a net advance of 33 rows
(head at row 3) the done test agrees with the threshold formula. -/
theorem c4_is_done_threshold_witness :
    ((⟨0, -30, 2, 10, List.replicate 10 'a', 0⟩ : Drop).is_done 24 = false) ∧
    ((⟨0, 3, 2, 10, List.replicate 10 'a', 0⟩ : Drop).is_done 24 = true ↔
      (24 : Int) + (10 : Int) < -30 + (33 : Nat)) := by
  have h := c4_is_done_threshold.1 0 defaultSettings gZero
    ⟨0, -30, 2, 10, List.replicate 10 'a', 0⟩ (by decide)
  exact ⟨h.1 24, h.2 33 24 ⟨0, 3, 2, 10, List.replicate 10 'a', 0⟩ rfl (by decide)⟩

/-! ## Claim C9 -/

theorem shimmerStep_eq_some {len : Nat} {cs cs' : List Char} {g g' : RNG}
    (h : shimmerStep len cs g = some (cs', g')) :
    cs'.length = cs.length ∧
    ((∀ c ∈ cs, c ∈ charsVec) → ∀ c ∈ cs', c ∈ charsVec) := by
  unfold shimmerStep at h
  rw [Gen.bind_eq_some] at h
  obtain ⟨b, g1, hb, h⟩ := h
  cases b with
  | false =>
    simp only [Bool.false_eq_true, if_false, Gen.pure, Option.some.injEq,
      Prod.mk.injEq] at h
    obtain ⟨rfl, -⟩ := h
    exact ⟨rfl, fun hm => hm⟩
  | true =>
    simp only [if_true] at h
    rw [Gen.bind_eq_some] at h
    obtain ⟨idx, g2, hidx, h⟩ := h
    rw [Gen.bind_eq_some] at h
    obtain ⟨ci, g3, hci, h⟩ := h
    obtain ⟨-, hcilt⟩ := genRangeLt_eq_some hci
    split at h
    · next hinb =>
      simp only [Gen.pure, Option.some.injEq, Prod.mk.injEq] at h
      obtain ⟨rfl, -⟩ := h
      refine ⟨List.length_set .., ?_⟩
      intro hm c hc
      rcases List.mem_or_eq_of_mem_set hc with hc | hc
      · exact hm c hc
      · subst hc
        rw [List.getD_eq_getElem _ _ (by omega)]
        exact List.getElem_mem _
    · exact absurd h (by simp [Gen.fail])

theorem shimmerLoop_eq_some {len : Nat} : ∀ (n : Nat) (cs cs' : List Char) (g g' : RNG),
    shimmerLoop len n cs g = some (cs', g') →
    cs'.length = cs.length ∧
    ((∀ c ∈ cs, c ∈ charsVec) → ∀ c ∈ cs', c ∈ charsVec) := by
  intro n
  induction n with
  | zero =>
    intro cs cs' g g' h
    simp only [shimmerLoop, Gen.pure, Option.some.injEq, Prod.mk.injEq] at h
    obtain ⟨rfl, -⟩ := h
    exact ⟨rfl, fun hm => hm⟩
  | succ k ih =>
    intro cs cs' g g' h
    simp only [shimmerLoop] at h
    rw [Gen.bind_eq_some] at h
    obtain ⟨cs1, g1, h1, h2⟩ := h
    obtain ⟨hl1, hm1⟩ := shimmerStep_eq_some h1
    obtain ⟨hl2, hm2⟩ := ih cs1 cs' g1 g' h2
    exact ⟨hl2.trans hl1, fun hm => hm2 (hm1 hm)⟩

/-- Success shape of `Drop::update`: the returned drop keeps `x`, `speed` and
`length`, its tick is the wrapped increment, and its glyph buffer is either
untouched (gate failed) or the shimmered buffer of the same length. -/
theorem update_eq_some_spec {d : Drop} {h : Nat} {sch : ColorScheme} {g : RNG}
    {d' : Drop} {dr : List DrawCmd}
    (hu : (d.update h sch g).map Prod.fst = some (d', dr)) :
    d'.x = d.x ∧ d'.speed = d.speed ∧ d'.length = d.length ∧
    d'.tick = (d.tick + 1) % 256 ∧
    d'.chars.length = d.chars.length ∧
    ((∀ c ∈ d.chars, c ∈ charsVec) → ∀ c ∈ d'.chars, c ∈ charsVec) := by
  rw [Option.map_eq_some'] at hu
  obtain ⟨⟨p, gf⟩, hp, hfst⟩ := hu
  unfold Drop.update at hp
  split at hp
  · exact absurd hp (by simp [Gen.fail])
  · simp only [ne_eq] at hp
    split at hp
    · simp only [Gen.pure, Option.some.injEq, Prod.mk.injEq] at hp
      obtain ⟨rfl, -⟩ := hp
      simp only [Prod.mk.injEq] at hfst
      obtain ⟨rfl, rfl⟩ := hfst
      exact ⟨rfl, rfl, rfl, rfl, rfl, fun hm => hm⟩
    · rw [Gen.bind_eq_some] at hp
      obtain ⟨sc, g1, hsc, hp⟩ := hp
      rw [Gen.bind_eq_some] at hp
      obtain ⟨cs, g2, hcs, hp⟩ := hp
      simp only [Gen.pure, Option.some.injEq, Prod.mk.injEq] at hp
      obtain ⟨rfl, -⟩ := hp
      simp only [Prod.mk.injEq] at hfst
      obtain ⟨rfl, rfl⟩ := hfst
      obtain ⟨hl, hm⟩ := shimmerLoop_eq_some sc d.chars cs g1 g2 hcs
      exact ⟨rfl, rfl, rfl, rfl, hl, hm⟩

/-- C9: the glyph-buffer invariant — the buffer always holds exactly
`length` glyphs, all drawn from the fixed charset.  `Drop::new` establishes
it and every successful `Drop::update` (shimmer included) preserves it. -/
theorem c9_glyph_buffer_invariant :
    (∀ (x : Nat) (s : Settings) (g : RNG) (d : Drop),
        (Drop.new x s g).map Prod.fst = some d →
        d.chars.length = d.length ∧ ∀ c ∈ d.chars, c ∈ charsVec) ∧
    (∀ (d : Drop) (h : Nat) (sch : ColorScheme) (g : RNG) (d' : Drop)
        (dr : List DrawCmd),
        (d.update h sch g).map Prod.fst = some (d', dr) →
        d.chars.length = d.length → (∀ c ∈ d.chars, c ∈ charsVec) →
        d'.chars.length = d'.length ∧ ∀ c ∈ d'.chars, c ∈ charsVec) := by
  constructor
  · intro x s g d hd
    obtain ⟨-, -, -, -, -, h7, h8⟩ := dropNew_spec hd
    exact ⟨h7, h8⟩
  · intro d h sch g d' dr hu hlen hmem
    obtain ⟨-, -, hL, -, hcl, hcm⟩ := update_eq_some_spec hu
    exact ⟨by rw [hcl, hlen, hL], hcm hmem⟩

set_option maxRecDepth 16384 in
/-- C9 witness: the invariant instantiated on the drop `Drop::new 0` builds
from the all-zeros stream, and on one successful update of it (the gate
fails at tick 1 of speed 2, so the buffer is carried over unchanged). -/
theorem c9_glyph_buffer_invariant_witness :
    ((List.replicate 10 'a').length = 10 ∧
      ∀ c ∈ List.replicate 10 'a', c ∈ charsVec) ∧
    ((⟨0, -30, 2, 10, List.replicate 10 'a', 1⟩ : Drop).chars.length =
        (⟨0, -30, 2, 10, List.replicate 10 'a', 1⟩ : Drop).length ∧
      ∀ c ∈ (⟨0, -30, 2, 10, List.replicate 10 'a', 1⟩ : Drop).chars, c ∈ charsVec) := by
  constructor
  · exact c9_glyph_buffer_invariant.1 0 defaultSettings gZero
      ⟨0, -30, 2, 10, List.replicate 10 'a', 0⟩ (by decide)
  · exact c9_glyph_buffer_invariant.2 ⟨0, -30, 2, 10, List.replicate 10 'a', 0⟩ 24 .green gZero
      ⟨0, -30, 2, 10, List.replicate 10 'a', 1⟩ [] (by decide) (by decide) (by decide)

/-! ## Claim C7 -/

/-- The draw-collection loop, re-expressed as a filter over buffer indices:
cell `i` (at running offset `j`) is emitted iff its absolute row lies in
`[0, height)`. -/
theorem drawCells_eq (x : Nat) (y : Int) (h len : Nat) (sch : ColorScheme) :
    ∀ (cs : List Char) (j : Nat),
      drawCells x y h len sch cs j =
        (List.range cs.length).filterMap (fun i =>
          if 0 ≤ y - ((j + i : Nat) : Int) ∧ y - ((j + i : Nat) : Int) < (h : Int) then
            some (x, (y - ((j + i : Nat) : Int)).toNat, cs.getD i ' ',
              get_colors sch (j + i) len x)
          else none) := by
  intro cs
  induction cs with
  | nil => intro j; simp [drawCells]
  | cons c rest ih =>
    intro j
    rw [drawCells]
    rw [List.length_cons, List.range_succ_eq_map, List.filterMap_cons, List.filterMap_map]
    have hfun : ((fun (i : Nat) =>
        if 0 ≤ y - ((j + i : Nat) : Int) ∧ y - ((j + i : Nat) : Int) < (h : Int) then
          some (x, (y - ((j + i : Nat) : Int)).toNat, (c :: rest).getD i ' ',
            get_colors sch (j + i) len x)
        else none) ∘ Nat.succ) = (fun (i : Nat) =>
        if 0 ≤ y - (((j + 1) + i : Nat) : Int) ∧ y - (((j + 1) + i : Nat) : Int) < (h : Int) then
          some (x, (y - (((j + 1) + i : Nat) : Int)).toNat, rest.getD i ' ',
            get_colors sch ((j + 1) + i) len x)
        else none) := by
      funext i
      simp only [Function.comp_apply, Nat.succ_eq_add_one, List.getD_cons_succ]
      rw [show j + (i + 1) = (j + 1) + i from by omega]
    rw [hfun, ← ih (j + 1)]
    simp only [Nat.add_zero, List.getD_cons_zero]
    by_cases hc : 0 ≤ y - (j : Int) ∧ y - (j : Int) < (h : Int)
    · simp only [hc, if_true, and_self]
    · simp only [hc, if_false]

theorem shimmerStep_isSome {len : Nat} (hl : 1 ≤ len) (cs : List Char) (g : RNG)
    (hcs : cs.length = len) :
    ∃ cs' g', shimmerStep len cs g = some (cs', g') := by
  have hb : genBool g = some ((g 0 % 2 == 1), RNG.tail g) := rfl
  unfold shimmerStep
  rw [Gen.bind_eq hb]
  cases hcoin : (g 0 % 2 == 1) with
  | false =>
    exact ⟨cs, RNG.tail g, rfl⟩
  | true =>
    simp only [if_true]
    have hrl : genRangeLt 0 len (RNG.tail g) =
        some (0 + RNG.tail g 0 % (len - 0), RNG.tail (RNG.tail g)) := by
      unfold genRangeLt
      rw [if_pos (by omega : 0 < len)]
    rw [Gen.bind_eq hrl]
    have hrc : genRangeLt 0 charsVec.length (RNG.tail (RNG.tail g)) =
        some (0 + RNG.tail (RNG.tail g) 0 % (charsVec.length - 0),
          RNG.tail (RNG.tail (RNG.tail g))) := by
      unfold genRangeLt
      rw [if_pos charsVec_pos]
    rw [Gen.bind_eq hrc]
    rw [if_pos]
    · exact ⟨_, _, rfl⟩
    · have := @Nat.mod_lt (RNG.tail g 0) (len - 0) (by omega)
      omega

theorem shimmerLoop_isSome {len : Nat} (hl : 1 ≤ len) :
    ∀ (n : Nat) (cs : List Char) (g : RNG), cs.length = len →
    ∃ cs' g', shimmerLoop len n cs g = some (cs', g') ∧ cs'.length = len := by
  intro n
  induction n with
  | zero =>
    intro cs g hcs
    exact ⟨cs, g, rfl, hcs⟩
  | succ k ih =>
    intro cs g hcs
    obtain ⟨cs1, g1, hstep⟩ := shimmerStep_isSome hl cs g hcs
    have hlen1 : cs1.length = len := (shimmerStep_eq_some hstep).1.trans hcs
    obtain ⟨cs', g', hloop, hlen'⟩ := ih cs1 g1 hlen1
    refine ⟨cs', g', ?_, hlen'⟩
    simp only [shimmerLoop]
    rw [Gen.bind_eq_some]
    exact ⟨cs1, g1, hstep, hloop⟩

/-- C7: each `Drop::update` call bumps the tick counter; when
`tick % speed ≠ 0` it returns no instructions and does not move; otherwise
the head advances by exactly one row, one draw instruction is emitted for
exactly the buffer indices whose absolute row `head - i` lies in
`[0, height)` (in index order, with the post-shimmer glyph and the scheme
color), followed by exactly one blanking space iff the tail row
`head - length` lies in `[0, height)`. -/
theorem c7_update_draw_characterization :
    ∀ (d : Drop) (h : Nat) (sch : ColorScheme) (g : RNG),
      1 ≤ d.speed → 1 ≤ d.length → d.chars.length = d.length →
      ∃ (d' : Drop) (dr : List DrawCmd),
        (d.update h sch g).map Prod.fst = some (d', dr) ∧
        d'.tick = (d.tick + 1) % 256 ∧
        ((d.tick + 1) % 256 % d.speed ≠ 0 →
          dr = [] ∧ d'.y = d.y ∧ d'.chars = d.chars) ∧
        ((d.tick + 1) % 256 % d.speed = 0 →
          d'.y = d.y + 1 ∧ d'.chars.length = d.length ∧
          dr = (List.range d.length).filterMap (fun (i : Nat) =>
                 if 0 ≤ d.y + 1 - (i : Int) ∧ d.y + 1 - (i : Int) < (h : Int) then
                   some (d.x, (d.y + 1 - (i : Int)).toNat, d'.chars.getD i ' ',
                     get_colors sch i d.length d.x)
                 else none) ++
               (if 0 ≤ d.y + 1 - (d.length : Int) ∧ d.y + 1 - (d.length : Int) < (h : Int) then
                  [(d.x, (d.y + 1 - (d.length : Int)).toNat, ' ', Co.black)] else []))
    := by
  intro d h sch g hsp hlen hchars
  by_cases hgate : (d.tick + 1) % 256 % d.speed = 0
  · have hrange : genRangeN 0 2 g = some (0 + g 0 % 3, RNG.tail g) := by
      unfold genRangeN
      norm_num
    obtain ⟨cs, g2, hloop, hlencs⟩ :=
      shimmerLoop_isSome hlen (0 + g 0 % 3) d.chars (RNG.tail g) hchars
    have hupd : d.update h sch g =
        some (({ d with tick := (d.tick + 1) % 256, y := d.y + 1, chars := cs },
          drawCells d.x (d.y + 1) h d.length sch cs 0 ++
            (if 0 ≤ d.y + 1 - (d.length : Int) ∧ d.y + 1 - (d.length : Int) < (h : Int) then
              [(d.x, (d.y + 1 - (d.length : Int)).toNat, ' ', Co.black)] else [])), g2) := by
      simp only [Drop.update, if_neg (by omega : ¬ d.speed = 0), ne_eq, hgate,
        not_true_eq_false, if_false]
      rw [Gen.bind_eq hrange]
      rw [Gen.bind_eq hloop]
      rfl
    refine ⟨{ d with tick := (d.tick + 1) % 256, y := d.y + 1, chars := cs },
      drawCells d.x (d.y + 1) h d.length sch cs 0 ++
        (if 0 ≤ d.y + 1 - (d.length : Int) ∧ d.y + 1 - (d.length : Int) < (h : Int) then
          [(d.x, (d.y + 1 - (d.length : Int)).toNat, ' ', Co.black)] else []),
      by rw [hupd]; rfl, rfl,
      fun hng => absurd hgate hng,
      fun _ => ⟨rfl, hlencs, ?_⟩⟩
    rw [drawCells_eq]
    rw [hlencs]
    simp only [Nat.zero_add]
  · refine ⟨{ d with tick := (d.tick + 1) % 256 }, [], ?_, rfl,
      fun _ => ⟨rfl, rfl, rfl⟩, fun hg => absurd hg hgate⟩
    simp only [Drop.update, if_neg (by omega : ¬ d.speed = 0), ne_eq, hgate,
      not_false_eq_true, if_true, Gen.pure, Option.map_some']

set_option maxRecDepth 16384 in
/-- C7 witness: instantiating the characterization at a concrete moving drop
(speed 1, length 2, head row 3, height 24): the update emits the two body
cells and the tail blank. -/
theorem c7_update_draw_characterization_witness :
    ∃ (d' : Drop) (dr : List DrawCmd),
      ((⟨7, 3, 1, 2, ['a', 'b'], 0⟩ : Drop).update 24 .green gZero).map Prod.fst
        = some (d', dr) ∧ d'.tick = (0 + 1) % 256 := by
  obtain ⟨d', dr, h1, h2, -, -⟩ :=
    c7_update_draw_characterization ⟨7, 3, 1, 2, ['a', 'b'], 0⟩ 24 .green gZero
      (by decide) (by decide) (by decide)
  exact ⟨d', dr, h1, h2⟩

/-! ## Claim C10 -/

/-- A drop with every field inside the ranges `Drop::new` samples from the
default settings (column 0, initial row −30, speed 4 ∈ [2, 4], length
30 ∈ [10, 30]), against the fallback terminal height 24: its lifetime
exceeds 255 update calls. -/
def dLong : Drop := ⟨0, -30, 4, 30, List.replicate 30 'a', 0⟩

/-- Tick evolution across iterated updates: starting from a stored `u8` tick,
`n` successful update calls leave the counter at `(tick + n) % 256` — it is
incremented on every call and never reset. -/
theorem runUpdates_tick : ∀ (n : Nat) (h : Nat) (sch : ColorScheme) (d : Drop)
    (g : RNG) (d' : Drop), d.tick < 256 →
    (runUpdates h sch n d g).map Prod.fst = some d' →
    d'.tick = (d.tick + n) % 256 := by
  intro n
  induction n with
  | zero =>
    intro h sch d g d' htk hr
    simp only [runUpdates, Gen.pure, Option.map_some', Option.some.injEq] at hr
    subst hr
    omega
  | succ k ih =>
    intro h sch d g d' htk hr
    rw [Option.map_eq_some'] at hr
    obtain ⟨⟨df, gf⟩, hbind, hfst⟩ := hr
    simp only [runUpdates] at hbind
    rw [Gen.bind_eq_some] at hbind
    obtain ⟨p, g1, hupd, hrest⟩ := hbind
    have hspec := update_eq_some_spec
      (show (d.update h sch g).map Prod.fst = some (p.1, p.2) by rw [hupd]; rfl)
    have h1 : p.1.tick = (d.tick + 1) % 256 := hspec.2.2.2.1
    have hih := ih h sch p.1 g1 d' (by omega) (by rw [hrest]; simpa using hfst)
    omega

set_option maxRecDepth 100000 in
/-- C10: the `u8` tick counter is incremented (mod `2^8`) on every update
call and never reset, so after `n` calls it reads `(tick₀ + n) % 256`; the
concrete drop `dLong` (parameters inside the default spawn ranges) is still
alive after 255 calls with its counter at 255, and the 256th call wraps the
counter to 0 while the head is still on screen; and the movement gate
`(n % 256) % speed = 0` agrees with the unwrapped cadence `n % speed = 0` at
every call count if and only if the speed divides 256 — in particular speed
3 moves on two consecutive calls, 255 and 256. -/
theorem c10_tick_wraps_and_perturbs_cadence :
    (∀ (d : Drop) (h : Nat) (sch : ColorScheme) (g : RNG) (d' : Drop)
        (dr : List DrawCmd),
        (d.update h sch g).map Prod.fst = some (d', dr) →
        d'.tick = (d.tick + 1) % 256) ∧
    (∀ (h : Nat) (sch : ColorScheme) (n : Nat) (d : Drop) (g : RNG) (d' : Drop),
        d.tick < 256 →
        (runUpdates h sch n d g).map Prod.fst = some d' →
        d'.tick = (d.tick + n) % 256) ∧
    ((runUpdates 24 .green 255 dLong gZero).map
        (fun p => (p.1.tick, p.1.y, p.1.is_done 24)) = some (255, 33, false)) ∧
    ((runUpdates 24 .green 256 dLong gZero).map
        (fun p => (p.1.tick, p.1.y)) = some (0, 34)) ∧
    (∀ s : Nat, 1 ≤ s →
        ((∀ n : Nat, n % 256 % s = 0 ↔ n % s = 0) ↔ 256 % s = 0)) ∧
    (255 % 256 % 3 = 0 ∧ 256 % 256 % 3 = 0 ∧ 256 % 3 ≠ 0) := by
  refine ⟨?_, fun h sch n d g d' => runUpdates_tick n h sch d g d', by decide, by decide,
    ?_, by decide⟩
  · intro d h sch g d' dr hu
    exact (update_eq_some_spec hu).2.2.2.1
  · intro s hs
    constructor
    · intro hall
      exact (hall 256).mp (by simp)
    · intro hdvd n
      rw [Nat.mod_mod_of_dvd n (Nat.dvd_of_mod_eq_zero hdvd)]

set_option maxRecDepth 16384 in
/-- C10 witness: the tick-evolution conjunct instantiated at one update call
of `dLong` on the all-zeros stream (the gate fails at tick 1, the counter
still advances). -/
theorem c10_tick_wraps_and_perturbs_cadence_witness :
    (⟨0, -30, 4, 30, List.replicate 30 'a', 1⟩ : Drop).tick = (0 + 1) % 256 := by
  exact c10_tick_wraps_and_perturbs_cadence.2.1 24 .green 1 dLong gZero
    ⟨0, -30, 4, 30, List.replicate 30 'a', 1⟩ (by decide) (by decide)

/-! ## Claim C8 -/

/-- The fade-driven intensity each scheme's non-overridden branch computes:
`(1 - fade * 0.85).max(0.15)` for the five solid schemes,
`(1 - fade * 0.8).max(0.2)` for Rainbow, with `fade = i / len`. -/
def intensityOf (sch : ColorScheme) (i len : Nat) : ℚ :=
  match sch with
  | .rainbow => max (1 - (i : ℚ) / (len : ℚ) * (80/100)) (20/100)
  | _ => max (1 - (i : ℚ) / (len : ℚ) * (85/100)) (15/100)

/-- All RGB channels of a rational color lie inside `[0, 255]`. -/
def qcolorInRange : QColor → Prop
  | .white => True
  | .qrgb r g b => 0 ≤ r ∧ r ≤ 255 ∧ 0 ≤ g ∧ g ≤ 255 ∧ 0 ≤ b ∧ b ≤ 255

set_option maxHeartbeats 1000000 in
theorem hsv_to_rgb_bounds (h s v : ℚ) (hs0 : 0 ≤ s) (hs1 : s ≤ 1)
    (hv0 : 0 ≤ v) (hv1 : v ≤ 1) :
    0 ≤ (hsv_to_rgb h s v).1 ∧ (hsv_to_rgb h s v).1 ≤ 255 ∧
    0 ≤ (hsv_to_rgb h s v).2.1 ∧ (hsv_to_rgb h s v).2.1 ≤ 255 ∧
    0 ≤ (hsv_to_rgb h s v).2.2 ∧ (hsv_to_rgb h s v).2.2 ≤ 255 := by
  have hf0 : 0 ≤ h * 6 - (⌊h * 6⌋ : ℚ) := by
    have := Int.floor_le (h * 6)
    linarith
  have hf1 : h * 6 - (⌊h * 6⌋ : ℚ) ≤ 1 := by
    have := Int.lt_floor_add_one (h * 6)
    linarith
  have hfs0 : 0 ≤ (h * 6 - (⌊h * 6⌋ : ℚ)) * s := mul_nonneg hf0 hs0
  have hfs1 : (h * 6 - (⌊h * 6⌋ : ℚ)) * s ≤ 1 := mul_le_one₀ hf1 hs0 hs1
  have hgs0 : 0 ≤ (1 - (h * 6 - (⌊h * 6⌋ : ℚ))) * s := mul_nonneg (by linarith) hs0
  have hgs1 : (1 - (h * 6 - (⌊h * 6⌋ : ℚ))) * s ≤ 1 := mul_le_one₀ (by linarith) hs0 hs1
  have hp0 : 0 ≤ v * (1 - s) := mul_nonneg hv0 (by linarith)
  have hp1 : v * (1 - s) ≤ 1 := mul_le_one₀ hv1 (by linarith) (by linarith)
  have hq0 : 0 ≤ v * (1 - (h * 6 - (⌊h * 6⌋ : ℚ)) * s) := mul_nonneg hv0 (by linarith)
  have hq1 : v * (1 - (h * 6 - (⌊h * 6⌋ : ℚ)) * s) ≤ 1 := mul_le_one₀ hv1 (by linarith) (by linarith)
  have ht0 : 0 ≤ v * (1 - (1 - (h * 6 - (⌊h * 6⌋ : ℚ))) * s) := mul_nonneg hv0 (by linarith)
  have ht1 : v * (1 - (1 - (h * 6 - (⌊h * 6⌋ : ℚ))) * s) ≤ 1 :=
    mul_le_one₀ hv1 (by linarith) (by linarith)
  simp only [hsv_to_rgb]
  split <;> dsimp only <;>
    exact ⟨by nlinarith, by nlinarith, by nlinarith, by nlinarith, by nlinarith, by nlinarith⟩

theorem intensityOf_antitone (sch : ColorScheme) {i j len : Nat} (hij : i ≤ j) :
    intensityOf sch j len ≤ intensityOf sch i len := by
  have hfade : ((i : ℚ) / (len : ℚ)) ≤ ((j : ℚ) / (len : ℚ)) :=
    div_le_div_of_nonneg_right (by exact_mod_cast hij) (by positivity)
  cases sch <;>
    exact max_le_max (by nlinarith) le_rfl

set_option maxHeartbeats 1000000 in
/-- C8: for every scheme and every index below the drop length, all RGB
channel values `get_colors` computes lie within `[0, 255]` (already before
the `as u8` cast); and the fade intensity each scheme uses is non-increasing
in the index, so the trail fades monotonically — the only cells not driven
by that intensity are the explicitly overridden head/near-head cells
(index 0 and 1; for Rainbow only index 0), as the per-scheme linking
equations state. -/
theorem c8_channels_in_range_and_monotone_fade :
    (∀ (sch : ColorScheme) (i len x : Nat), i < len →
        qcolorInRange (getColorsQ sch i len x)) ∧
    (∀ (sch : ColorScheme) (i j len : Nat), i ≤ j →
        intensityOf sch j len ≤ intensityOf sch i len) ∧
    (∀ (i len x : Nat), 2 ≤ i → getColorsQ .green i len x =
        .qrgb (30 * (1 - (i : ℚ) / (len : ℚ))) (255 * intensityOf .green i len) 0) ∧
    (∀ (i len x : Nat), 2 ≤ i → getColorsQ .blue i len x =
        .qrgb 0 (100 * intensityOf .blue i len) (255 * intensityOf .blue i len)) ∧
    (∀ (i len x : Nat), 2 ≤ i → getColorsQ .red i len x =
        .qrgb (255 * intensityOf .red i len) (30 * (1 - (i : ℚ) / (len : ℚ))) 0) ∧
    (∀ (i len x : Nat), 2 ≤ i → getColorsQ .purple i len x =
        .qrgb (180 * intensityOf .purple i len) 0 (255 * intensityOf .purple i len)) ∧
    (∀ (i len x : Nat), 2 ≤ i → getColorsQ .cyan i len x =
        .qrgb 0 (255 * intensityOf .cyan i len) (255 * intensityOf .cyan i len)) ∧
    (∀ (i len x : Nat), 1 ≤ i → getColorsQ .rainbow i len x =
        .qrgb (hsv_to_rgb (fmodQ ((x : ℚ) * 10 + (i : ℚ) * 15) 360 / 360) 1
            (intensityOf .rainbow i len)).1
          (hsv_to_rgb (fmodQ ((x : ℚ) * 10 + (i : ℚ) * 15) 360 / 360) 1
            (intensityOf .rainbow i len)).2.1
          (hsv_to_rgb (fmodQ ((x : ℚ) * 10 + (i : ℚ) * 15) 360 / 360) 1
            (intensityOf .rainbow i len)).2.2) := by
  refine ⟨?_, fun sch i j len hij => intensityOf_antitone sch hij, ?_, ?_, ?_, ?_, ?_, ?_⟩
  · intro sch i len x hil
    have hlen : 0 < len := by omega
    have hlenq : (0 : ℚ) < (len : ℚ) := by exact_mod_cast hlen
    have hf0 : (0 : ℚ) ≤ (i : ℚ) / (len : ℚ) := by positivity
    have hf1 : (i : ℚ) / (len : ℚ) ≤ 1 := by
      rw [div_le_one hlenq]
      exact_mod_cast hil.le
    cases sch with
    | green =>
      by_cases h0 : i = 0
      · norm_num [getColorsQ, h0, qcolorInRange]
      by_cases h1 : i = 1
      · norm_num [getColorsQ, h0, h1, qcolorInRange]
      simp only [getColorsQ, if_neg h0, if_neg h1, qcolorInRange]
      have hv0 : (0 : ℚ) ≤ max (1 - (i : ℚ) / (len : ℚ) * (85/100)) (15/100) :=
        le_trans (by norm_num) (le_max_right _ _)
      have hv1 : max (1 - (i : ℚ) / (len : ℚ) * (85/100)) (15/100) ≤ 1 :=
        max_le (by nlinarith) (by norm_num)
      refine ⟨?_, ?_, ?_, ?_, ?_, ?_⟩ <;> nlinarith
    | blue =>
      by_cases h0 : i = 0
      · norm_num [getColorsQ, h0, qcolorInRange]
      by_cases h1 : i = 1
      · norm_num [getColorsQ, h0, h1, qcolorInRange]
      simp only [getColorsQ, if_neg h0, if_neg h1, qcolorInRange]
      have hv0 : (0 : ℚ) ≤ max (1 - (i : ℚ) / (len : ℚ) * (85/100)) (15/100) :=
        le_trans (by norm_num) (le_max_right _ _)
      have hv1 : max (1 - (i : ℚ) / (len : ℚ) * (85/100)) (15/100) ≤ 1 :=
        max_le (by nlinarith) (by norm_num)
      refine ⟨?_, ?_, ?_, ?_, ?_, ?_⟩ <;> nlinarith
    | red =>
      by_cases h0 : i = 0
      · norm_num [getColorsQ, h0, qcolorInRange]
      by_cases h1 : i = 1
      · norm_num [getColorsQ, h0, h1, qcolorInRange]
      simp only [getColorsQ, if_neg h0, if_neg h1, qcolorInRange]
      have hv0 : (0 : ℚ) ≤ max (1 - (i : ℚ) / (len : ℚ) * (85/100)) (15/100) :=
        le_trans (by norm_num) (le_max_right _ _)
      have hv1 : max (1 - (i : ℚ) / (len : ℚ) * (85/100)) (15/100) ≤ 1 :=
        max_le (by nlinarith) (by norm_num)
      refine ⟨?_, ?_, ?_, ?_, ?_, ?_⟩ <;> nlinarith
    | purple =>
      by_cases h0 : i = 0
      · norm_num [getColorsQ, h0, qcolorInRange]
      by_cases h1 : i = 1
      · norm_num [getColorsQ, h0, h1, qcolorInRange]
      simp only [getColorsQ, if_neg h0, if_neg h1, qcolorInRange]
      have hv0 : (0 : ℚ) ≤ max (1 - (i : ℚ) / (len : ℚ) * (85/100)) (15/100) :=
        le_trans (by norm_num) (le_max_right _ _)
      have hv1 : max (1 - (i : ℚ) / (len : ℚ) * (85/100)) (15/100) ≤ 1 :=
        max_le (by nlinarith) (by norm_num)
      refine ⟨?_, ?_, ?_, ?_, ?_, ?_⟩ <;> nlinarith
    | cyan =>
      by_cases h0 : i = 0
      · norm_num [getColorsQ, h0, qcolorInRange]
      by_cases h1 : i = 1
      · norm_num [getColorsQ, h0, h1, qcolorInRange]
      simp only [getColorsQ, if_neg h0, if_neg h1, qcolorInRange]
      have hv0 : (0 : ℚ) ≤ max (1 - (i : ℚ) / (len : ℚ) * (85/100)) (15/100) :=
        le_trans (by norm_num) (le_max_right _ _)
      have hv1 : max (1 - (i : ℚ) / (len : ℚ) * (85/100)) (15/100) ≤ 1 :=
        max_le (by nlinarith) (by norm_num)
      refine ⟨?_, ?_, ?_, ?_, ?_, ?_⟩ <;> nlinarith
    | rainbow =>
      by_cases h0 : i = 0
      · simp [getColorsQ, h0, qcolorInRange]
      simp only [getColorsQ, if_neg h0, qcolorInRange]
      have hv0 : (0 : ℚ) ≤ max (1 - (i : ℚ) / (len : ℚ) * (80/100)) (20/100) :=
        le_trans (by norm_num) (le_max_right _ _)
      have hv1 : max (1 - (i : ℚ) / (len : ℚ) * (80/100)) (20/100) ≤ 1 :=
        max_le (by nlinarith) (by norm_num)
      exact hsv_to_rgb_bounds _ 1 _ (by norm_num) (by norm_num) hv0 hv1
  · intro i len x h2
    simp only [getColorsQ]
    rw [if_neg (by omega : ¬ i = 0), if_neg (by omega : ¬ i = 1)]
    rfl
  · intro i len x h2
    simp only [getColorsQ]
    rw [if_neg (by omega : ¬ i = 0), if_neg (by omega : ¬ i = 1)]
    rfl
  · intro i len x h2
    simp only [getColorsQ]
    rw [if_neg (by omega : ¬ i = 0), if_neg (by omega : ¬ i = 1)]
    rfl
  · intro i len x h2
    simp only [getColorsQ]
    rw [if_neg (by omega : ¬ i = 0), if_neg (by omega : ¬ i = 1)]
    rfl
  · intro i len x h2
    simp only [getColorsQ]
    rw [if_neg (by omega : ¬ i = 0), if_neg (by omega : ¬ i = 1)]
    rfl
  · intro i len x h1
    simp only [getColorsQ]
    rw [if_neg (by omega : ¬ i = 0)]
    rfl

/-- C8 witness: the range and monotonicity statements instantiated at
concrete indices (scheme Green, indices 2 ≤ 3 within length 5, column 0). -/
theorem c8_channels_in_range_and_monotone_fade_witness :
    qcolorInRange (getColorsQ .green 2 5 0) ∧
    intensityOf .green 3 5 ≤ intensityOf .green 2 5 ∧
    getColorsQ .green 2 5 0 =
      .qrgb (30 * (1 - (2 : ℚ) / (5 : ℚ))) (255 * intensityOf .green 2 5) 0 := by
  exact ⟨c8_channels_in_range_and_monotone_fade.1 .green 2 5 0 (by norm_num),
    c8_channels_in_range_and_monotone_fade.2.1 .green 2 3 5 (by norm_num),
    c8_channels_in_range_and_monotone_fade.2.2.1 2 5 0 (by norm_num)⟩

/-! ## Claim C3 -/

theorem tot_spawnIter {s : Settings} {w : Nat} (hw : 1 ≤ w)
    (hl : s.min_length ≤ s.max_length) (hs : s.min_speed ≤ s.max_speed) :
    ∀ n, Tot (spawnIter s w n) := by
  intro n
  induction n with
  | zero => exact Tot.pure []
  | succ k ih =>
    refine tot_genBool.bind fun b => ?_
    cases b with
    | false => simpa using ih
    | true =>
      simp only [if_true]
      exact (tot_genRangeLt hw).bind fun x =>
        (tot_dropNew hl hs x).bind fun d => ih.bind fun rest => Tot.pure _

theorem dropNew_none_len {x : Nat} {s : Settings} (h : s.max_length < s.min_length)
    (g : RNG) : Drop.new x s g = none := by
  unfold Drop.new
  simp [Gen.bind, genRangeN, Nat.not_le.mpr h]

theorem dropNew_none_speed {x : Nat} {s : Settings} (hle : s.min_length ≤ s.max_length)
    (h : s.max_speed < s.min_speed) (g : RNG) : Drop.new x s g = none := by
  unfold Drop.new
  have h1 : genRangeN s.min_length s.max_length g =
      some (s.min_length + g 0 % (s.max_length + 1 - s.min_length), RNG.tail g) := by
    unfold genRangeN
    rw [if_pos hle]
  rw [Gen.bind_eq h1]
  have h2 : genY (RNG.tail g) =
      some (-30 + ((RNG.tail g 0 % 30 : Nat) : Int), RNG.tail (RNG.tail g)) := rfl
  rw [Gen.bind_eq h2]
  simp [Gen.bind, genRangeN, Nat.not_le.mpr h]

theorem spawnIter_none {s : Settings} {w : Nat} (n : Nat) (g : RNG)
    (hg : g 0 % 2 = 1)
    (hfail : w = 0 ∨ (∀ (x : Nat) (g' : RNG), Drop.new x s g' = none)) :
    spawnIter s w (n + 1) g = none := by
  simp only [spawnIter]
  have hb : genBool g = some (true, RNG.tail g) := by
    simp [genBool, hg]
  rw [Gen.bind_eq hb]
  simp only [if_true]
  rcases hfail with hw | hnew
  · subst hw
    simp [Gen.bind, genRangeLt]
  · rcases Nat.eq_zero_or_pos w with hw | hw
    · subst hw
      simp [Gen.bind, genRangeLt]
    · have hx : genRangeLt 0 w (RNG.tail g) =
          some (0 + RNG.tail g 0 % (w - 0), RNG.tail (RNG.tail g)) := by
        unfold genRangeLt
        rw [if_pos hw]
      rw [Gen.bind_eq hx]
      simp [Gen.bind, hnew]

theorem spawn_drops_none_of {s : Settings} {w : Nat} (hsp : 1 ≤ s.spawns_per_frame)
    (hfail : w = 0 ∨ (∀ (x : Nat) (g' : RNG), Drop.new x s g' = none)) :
    spawn_drops s w gOne = none := by
  unfold spawn_drops
  have hcount : genRangeN 1 s.spawns_per_frame gOne =
      some (1 + gOne 0 % (s.spawns_per_frame + 1 - 1), RNG.tail gOne) := by
    unfold genRangeN
    rw [if_pos hsp]
  rw [Gen.bind_eq hcount]
  obtain ⟨m, hm⟩ : ∃ m, 1 + gOne 0 % (s.spawns_per_frame + 1 - 1) = m + 1 :=
    ⟨gOne 0 % (s.spawns_per_frame + 1 - 1), by omega⟩
  rw [hm]
  exact spawnIter_none m (RNG.tail gOne) rfl hfail

set_option maxRecDepth 16384 in
/-- C3: `Matrix::spawn_drops` (with the `Drop::new` calls it performs) is
panic-free for every entropy stream iff `spawns_per_frame ≥ 1`, `width ≥ 1`,
`min_length ≤ max_length` and `min_speed ≤ max_speed` all hold at call time;
and these preconditions are not enforced on CLI input: `--spawns 0` and
`--length 5` (below the default `min_length` of 10) both produce settings
whose spawn step hits `gen_range`'s empty-range panic branch, exhibited on
the all-ones stream. -/
theorem c3_spawn_panic_free_iff_and_cli_reachable :
    (∀ (s : Settings) (w : Nat),
        (∀ g : RNG, (spawn_drops s w g).isSome) ↔
        (1 ≤ s.spawns_per_frame ∧ 1 ≤ w ∧ s.min_length ≤ s.max_length ∧
          s.min_speed ≤ s.max_speed)) ∧
    (∃ s : Settings, parse_args ["-n", "0"] = some s ∧ s.spawns_per_frame = 0 ∧
        (spawn_drops s 80 gOne).isSome = false) ∧
    (∃ s : Settings, parse_args ["-l", "5"] = some s ∧ s.min_length = 10 ∧
        s.max_length = 5 ∧ (spawn_drops s 80 gOne).isSome = false) := by
  refine ⟨?_, ?_, ?_⟩
  · intro s w
    constructor
    · intro htot
      have h1 : 1 ≤ s.spawns_per_frame := by
        by_contra hc
        have hz : s.spawns_per_frame = 0 := by omega
        have := htot gZero
        rw [show spawn_drops s w gZero = none by
          unfold spawn_drops
          simp [Gen.bind, genRangeN, hz]] at this
        simp at this
      have h3 : s.min_length ≤ s.max_length := by
        by_contra hc
        have := htot gOne
        rw [spawn_drops_none_of h1
          (Or.inr (fun x g' => dropNew_none_len (by omega) g'))] at this
        simp at this
      have h2 : 1 ≤ w := by
        by_contra hc
        have := htot gOne
        rw [spawn_drops_none_of h1 (Or.inl (by omega))] at this
        simp at this
      have h4 : s.min_speed ≤ s.max_speed := by
        by_contra hc
        have := htot gOne
        rw [spawn_drops_none_of h1
          (Or.inr (fun x g' => dropNew_none_speed h3 (by omega) g'))] at this
        simp at this
      exact ⟨h1, h2, h3, h4⟩
    · rintro ⟨h1, h2, h3, h4⟩
      exact (tot_genRangeN h1).bind fun count => tot_spawnIter h2 h3 h4 count
  · refine ⟨{ defaultSettings with spawns_per_frame := 0 }, by rfl, rfl, by decide⟩
  · refine ⟨{ defaultSettings with max_length := 5 }, by rfl, rfl, rfl, by decide⟩

/-! ## Claim C2 -/

/-- The terminal-restore command sequence of the cleanup block. -/
def cleanupOps : List TermOp :=
  [.showCursor, .enableWrap, .setFg .reset, .clearAll, .moveTo 0 0, .disableRaw]

theorem cleanup_okQuit {ins : List IOIn} {log l : List TermOp}
    (h : cleanup ins log = .okQuit l) : l = log ++ cleanupOps := by
  unfold cleanup at h
  rcases hni : nextIn ins with ⟨i, ins1⟩
  rw [hni] at h
  dsimp only at h
  rcases hn2 : nextIn ins1 with ⟨i2, ins2⟩
  rw [hn2] at h
  dsimp only at h
  cases i <;> cases i2 <;> simp_all [cleanupOps]

theorem runLoop_okQuit : ∀ (fuel : Nat) (m : MatrixSt) (g : RNG) (ins : List IOIn)
    (log l : List TermOp), runLoop fuel m g ins log = .okQuit l →
    ∃ pre, l = pre ++ cleanupOps := by
  intro fuel
  induction fuel with
  | zero =>
    intro m g ins log l h
    simp [runLoop] at h
  | succ k ih =>
    intro m g ins log l h
    simp only [runLoop] at h
    rcases hf : frame m g ins log with ⟨ins1, log1⟩ | ⟨log1⟩ | ⟨log1⟩ | ⟨m1, g1, ins1, log1⟩ <;>
      rw [hf] at h
    · exact ⟨log1, cleanup_okQuit h⟩
    · simp at h
    · simp at h
    · exact ih m1 g1 ins1 log1 l h

theorem run_okQuit {fuel : Nat} {m : MatrixSt} {g : RNG} {ins : List IOIn}
    {l : List TermOp} (h : run fuel m g ins = .okQuit l) :
    ∃ pre, l = pre ++ cleanupOps := by
  unfold run at h
  rcases hni : nextIn ins with ⟨i0, ins0⟩
  rw [hni] at h
  dsimp only at h
  cases i0
  case fails => simp at h
  all_goals
    rcases hn1 : nextIn ins0 with ⟨i1, ins1⟩
  all_goals
    rw [hn1] at h
  all_goals
    dsimp only at h
  all_goals
    cases i1
  all_goals
    first
    | exact runLoop_okQuit _ _ _ _ _ _ h
    | simp at h

/-- C2 amended: the terminal-restore sequence (show cursor, re-enable line
wrap, reset color, clear, move home, exit raw mode) is attempted whenever
`Matrix::run` returns through the normal-quit path — whatever the oracle,
the keys pressed, or the frames elapsed. -/
theorem c2_quit_path_restores_terminal :
    ∀ (fuel : Nat) (m : MatrixSt) (g : RNG) (ins : List IOIn) (l : List TermOp),
      run fuel m g ins = .okQuit l →
      TermOp.showCursor ∈ l ∧ TermOp.enableWrap ∈ l ∧ TermOp.setFg .reset ∈ l ∧
      TermOp.clearAll ∈ l ∧ TermOp.moveTo 0 0 ∈ l ∧ TermOp.disableRaw ∈ l := by
  intro fuel m g ins l h
  obtain ⟨pre, rfl⟩ := run_okQuit h
  refine ⟨?_, ?_, ?_, ?_, ?_, ?_⟩ <;>
    · rw [List.mem_append]
      right
      simp [cleanupOps]

set_option maxRecDepth 16384 in
/-- C2 counterexample: the claim says restoration is attempted on every exit
path, including an I/O error from inside the loop; but when the frame's
`flush` fails (oracle: raw-mode and init writes succeed, no key event, size
query fails harmlessly, then `fails` at flush), `Matrix::run` propagates the
error immediately — the operation log ends at the flush and contains neither
`Show` nor `disable_raw_mode`. -/
theorem c2_counterexample_error_path_skips_restore :
    run 3 (MatrixSt.new none defaultSettings) gZero
        [.unitOk, .unitOk, .pollRes false, .sizeRes none, .fails] =
      .ioError [.enableRaw, .hideCursor, .disableWrap, .clearAll, .pollOp, .flushOp] ∧
    TermOp.showCursor ∉
      ([.enableRaw, .hideCursor, .disableWrap, .clearAll, .pollOp, .flushOp] : List TermOp) ∧
    TermOp.disableRaw ∉
      ([.enableRaw, .hideCursor, .disableWrap, .clearAll, .pollOp, .flushOp] : List TermOp) := by
  refine ⟨by decide, by decide, by decide⟩

set_option maxRecDepth 16384 in
/-- C2 witness: the quit-path theorem instantiated at a concrete oracle that
presses `q` on the first frame; the resulting log contains every restore
operation. -/
theorem c2_quit_path_restores_terminal_witness :
    TermOp.showCursor ∈ ([.enableRaw, .hideCursor, .disableWrap, .clearAll, .pollOp,
        .readOp, .showCursor, .enableWrap, .setFg .reset, .clearAll, .moveTo 0 0,
        .disableRaw] : List TermOp) ∧
    TermOp.enableWrap ∈ ([.enableRaw, .hideCursor, .disableWrap, .clearAll, .pollOp,
        .readOp, .showCursor, .enableWrap, .setFg .reset, .clearAll, .moveTo 0 0,
        .disableRaw] : List TermOp) ∧
    TermOp.setFg .reset ∈ ([.enableRaw, .hideCursor, .disableWrap, .clearAll, .pollOp,
        .readOp, .showCursor, .enableWrap, .setFg .reset, .clearAll, .moveTo 0 0,
        .disableRaw] : List TermOp) ∧
    TermOp.clearAll ∈ ([.enableRaw, .hideCursor, .disableWrap, .clearAll, .pollOp,
        .readOp, .showCursor, .enableWrap, .setFg .reset, .clearAll, .moveTo 0 0,
        .disableRaw] : List TermOp) ∧
    TermOp.moveTo 0 0 ∈ ([.enableRaw, .hideCursor, .disableWrap, .clearAll, .pollOp,
        .readOp, .showCursor, .enableWrap, .setFg .reset, .clearAll, .moveTo 0 0,
        .disableRaw] : List TermOp) ∧
    TermOp.disableRaw ∈ ([.enableRaw, .hideCursor, .disableWrap, .clearAll, .pollOp,
        .readOp, .showCursor, .enableWrap, .setFg .reset, .clearAll, .moveTo 0 0,
        .disableRaw] : List TermOp) := by
  exact c2_quit_path_restores_terminal 2 (MatrixSt.new none defaultSettings) gZero
    [.unitOk, .unitOk, .pollRes true, .readRes (some ⟨.char 'q', false⟩), .unitOk, .unitOk]
    _ (by decide)

end MatrixRain
